import Mathlib

/-!
Verification of the structured logger (src/logger.ts, src/types.ts).

The logger is embedded shallowly:
* `LogLevel` mirrors the `LogLevel` union type.
* `LEVEL_PRIORITY` mirrors the priority table; `LEVEL_PRIORITY_get` mirrors
  a raw JavaScript property access on that table, which yields `undefined`
  (here `none`) for an unrecognized key.
* Log entries are JavaScript objects, modelled as insertion-ordered
  association lists with unique keys (`objInsert` replaces in place, as
  object-literal spread does).
* The sink (`output`) is a function from an entry to an `Except` result:
  `Except.error e` models the sink throwing `e`, `Except.ok lines` models a
  normal return having written `lines` to standard output.
* `Logger.log` returns a `LogResult` recording the exact list of entries
  passed to the sink together with the sink's result, so "the sink is
  invoked zero/one times" is a statement about `sinkCalls`.
* `new Date().toISOString()` is nondeterministic, so the current timestamp
  string is an explicit argument `now` of the emission methods.
* `Deno.env.get ("DENO_ENV")` is a construction-time external read, passed
  to the constructor as the explicit argument `denoEnv`.
-/

/-- Severity levels, mirroring the `LogLevel` union in src/types.ts. -/
inductive LogLevel where
  | debug
  | info
  | warn
  | error
  | critical
deriving DecidableEq

/-- The string name of a level, as used for object keys in the source. -/
def levelName : LogLevel → String
  | .debug => "debug"
  | .info => "info"
  | .warn => "warn"
  | .error => "error"
  | .critical => "critical"

/-- The `LEVEL_PRIORITY` table of src/logger.ts, read at a valid key. -/
def LEVEL_PRIORITY : LogLevel → Nat
  | .debug => 0
  | .info => 1
  | .warn => 2
  | .error => 3
  | .critical => 4

/-- Raw JavaScript property access `LEVEL_PRIORITY[s]` for an arbitrary
string `s`: `undefined` (`none`) when `s` is not one of the five keys. -/
def LEVEL_PRIORITY_get (s : String) : Option Nat :=
  if s = "debug" then some 0
  else if s = "info" then some 1
  else if s = "warn" then some 2
  else if s = "error" then some 3
  else if s = "critical" then some 4
  else none

/-- JavaScript values appearing in log entries (flat fragment). -/
inductive Value where
  | vUndefined
  | vNull
  | vBool (b : Bool)
  | vNum (n : Int)
  | vStr (s : String)
deriving DecidableEq

/-- A JavaScript object: insertion-ordered fields with unique keys. -/
abbrev Obj := List (String × Value)

/-- Caller-supplied additional fields (`Record<string, unknown>`). -/
abbrev Fields := Obj

/-- Property read on an object: the first binding of the key. -/
def objLookup : Obj → String → Option Value
  | [], _ => none
  | kv :: rest, k => if kv.1 = k then some kv.2 else objLookup rest k

/-- Property write as in object-literal construction: replace the value at
an existing key in place, else append the new binding at the end. -/
def objInsert (o : Obj) (k : String) (v : Value) : Obj :=
  if k ∈ o.map Prod.fst then
    o.map (fun kv => if kv.1 = k then (k, v) else kv)
  else o ++ [(k, v)]

/-- Object spread `{...o, ...data}`: write each binding of `data` in order. -/
def objSpread (o : Obj) (data : Fields) : Obj :=
  data.foldl (fun acc kv => objInsert acc kv.1 kv.2) o

/-- JSON string escaping (quote and backslash). -/
def jsonEscape (s : String) : String :=
  String.mk (s.data.foldr (fun c acc =>
    if c = '\\' then '\\' :: '\\' :: acc
    else if c = '"' then '\\' :: '"' :: acc
    else c :: acc) [])

/-- `JSON.stringify` on a single value; `none` for `undefined`, which
`JSON.stringify` drops when it is an object member. -/
def jsonValStr : Value → Option String
  | .vUndefined => none
  | .vNull => some "null"
  | .vBool b => some (cond b "true" "false")
  | .vNum n => some (toString n)
  | .vStr s => some ("\"" ++ jsonEscape s ++ "\"")

/-- The serialized members of an object, undefined-valued keys skipped. -/
def jsonObjMembers (o : Obj) : List String :=
  o.filterMap (fun kv =>
    (jsonValStr kv.2).map (fun v => "\"" ++ jsonEscape kv.1 ++ "\":" ++ v))

/-- `JSON.stringify` on an object. -/
def jsonStringifyObj (o : Obj) : String :=
  "\x7b" ++ String.intercalate "," (jsonObjMembers o) ++ "\x7d"

/-- The keys that appear as members in the JSON serialization of an object:
exactly the keys whose value is not `undefined`. -/
def jsonKeys (o : Obj) : List String :=
  (o.filter (fun kv => kv.2 ≠ Value.vUndefined)).map Prod.fst

/-- Result of one sink invocation: a thrown value, or lines written. -/
abbrev SinkResult := Except Value (List String)

/-- The injected output function of the logger. -/
abbrev Sink := Obj → SinkResult

/-- The default sink: `(entry) => console.log(JSON.stringify(entry))`. -/
def defaultSink : Sink := fun entry => Except.ok [jsonStringifyObj entry]

/-- The private state of a `Logger` (src/logger.ts lines 45-49).
`minPriority` is `Option Nat` because a raw construction with an
unrecognized level name stores `undefined` there. -/
structure Logger where
  minPriority : Option Nat
  service : Option String
  env : String
  output : Sink

/-- The `LoggerOptions` object as received at run time: `minLevel` is a raw
string so that the untyped JavaScript behaviour is representable. -/
structure LoggerOptionsRaw where
  minLevel : Option String
  serviceName : Option String
  env : Option String
  output : Option Sink

/-- The constructor of src/logger.ts:
`minPriority = LEVEL_PRIORITY[options.minLevel ?? "info"]`,
`service = options.serviceName`,
`env = options.env ?? Deno.env.get("DENO_ENV") ?? "dev"`,
`output = options.output ?? defaultSink`. -/
def Logger.construct (opts : LoggerOptionsRaw) (denoEnv : Option String) : Logger :=
  ⟨LEVEL_PRIORITY_get (opts.minLevel.getD "info"),
   opts.serviceName,
   opts.env.getD (denoEnv.getD "dev"),
   opts.output.getD defaultSink⟩

/-- JavaScript `a < b` where `a` is a number and `b` is `number | undefined`:
comparison with `undefined` is `false`. -/
def jsLtNum (a : Nat) (b : Option Nat) : Bool :=
  match b with
  | none => false
  | some n => a < n

/-- The value stored at a field whose source expression is
`string | undefined`. -/
def jsStrOrUndef : Option String → Value
  | none => Value.vUndefined
  | some s => Value.vStr s

/-- The entry literal of `Logger.log`:
`{ timestamp, level, message, env, service, ...data }`. -/
def buildEntry (now : String) (level : LogLevel) (message : String)
    (env : String) (service : Option String) (data : Fields) : Obj :=
  objSpread
    [("timestamp", Value.vStr now),
     ("level", Value.vStr (levelName level)),
     ("message", Value.vStr message),
     ("env", Value.vStr env),
     ("service", jsStrOrUndef service)] data

/-- Observable outcome of one emission call: the entries passed to the sink
(in order) and the call's result. -/
structure LogResult where
  sinkCalls : List Obj
  result : SinkResult

/-- The private `log` method of src/logger.ts. The filtered branch performs
no side effect: no entry, no sink call, normal return. Otherwise the entry
is built and handed to the sink exactly once; the sink's result (including
a thrown error) is the call's result. -/
def Logger.log (l : Logger) (now : String) (level : LogLevel)
    (message : String) (dataOpt : Option Fields) : LogResult :=
  let data := dataOpt.getD []
  if jsLtNum (LEVEL_PRIORITY level) l.minPriority then ⟨[], Except.ok []⟩
  else
    let entry := buildEntry now level message l.env l.service data
    ⟨[entry], l.output entry⟩

/-- `Logger.debug` of src/logger.ts. -/
def Logger.debug (l : Logger) (now message : String) (dataOpt : Option Fields) : LogResult :=
  l.log now LogLevel.debug message dataOpt

/-- `Logger.info` of src/logger.ts. -/
def Logger.info (l : Logger) (now message : String) (dataOpt : Option Fields) : LogResult :=
  l.log now LogLevel.info message dataOpt

/-- `Logger.warn` of src/logger.ts. -/
def Logger.warn (l : Logger) (now message : String) (dataOpt : Option Fields) : LogResult :=
  l.log now LogLevel.warn message dataOpt

/-- `Logger.error` of src/logger.ts. -/
def Logger.error (l : Logger) (now message : String) (dataOpt : Option Fields) : LogResult :=
  l.log now LogLevel.error message dataOpt

/-- `Logger.critical` of src/logger.ts. -/
def Logger.critical (l : Logger) (now message : String) (dataOpt : Option Fields) : LogResult :=
  l.log now LogLevel.critical message dataOpt

/-- One call to a public emission method. -/
structure Call where
  level : LogLevel
  now : String
  message : String
  dataOpt : Option Fields

/-- Dispatch a call to the corresponding public method, returning the
logger state after the call (the methods assign no field, so the state
component is the receiver unchanged) together with the call's outcome. -/
def Logger.dispatch (l : Logger) (c : Call) : Logger × LogResult :=
  match c.level with
  | .debug => (l, l.debug c.now c.message c.dataOpt)
  | .info => (l, l.info c.now c.message c.dataOpt)
  | .warn => (l, l.warn c.now c.message c.dataOpt)
  | .error => (l, l.error c.now c.message c.dataOpt)
  | .critical => (l, l.critical c.now c.message c.dataOpt)

/-- The logger state after a sequence of emission calls. -/
def runCalls (l : Logger) (cs : List Call) : Logger :=
  cs.foldl (fun st c => (st.dispatch c).1) l
/-! ### Helper lemmas about object operations -/

lemma objLookup_map_replace_self (o : Obj) (k : String) (v : Value)
    (h : k ∈ o.map Prod.fst) :
    objLookup (o.map (fun kv => if kv.1 = k then (k, v) else kv)) k = some v := by
  induction o with
  | nil => simp at h
  | cons kv rest ih =>
      by_cases hk : kv.1 = k
      · simp [objLookup, hk]
      · have hmem : k ∈ rest.map Prod.fst := by
          simp only [List.map_cons, List.mem_cons] at h
          rcases h with h | h
          · exact absurd h.symm hk
          · exact h
        rw [List.map_cons, if_neg hk]
        simp only [objLookup, if_neg hk]
        exact ih hmem

lemma objLookup_map_replace_ne (o : Obj) (k kq : String) (v : Value)
    (h : kq ≠ k) :
    objLookup (o.map (fun kv => if kv.1 = k then (k, v) else kv)) kq =
      objLookup o kq := by
  have h1 : ¬ (k = kq) := fun hc => h hc.symm
  induction o with
  | nil => rfl
  | cons kv rest ih =>
      by_cases hk : kv.1 = k
      · have h2 : ¬ (kv.1 = kq) := by rw [hk]; exact h1
        rw [List.map_cons, if_pos hk]
        simp only [objLookup, if_neg h1, if_neg h2]
        exact ih
      · rw [List.map_cons, if_neg hk]
        simp only [objLookup]
        by_cases hq : kv.1 = kq
        · rw [if_pos hq, if_pos hq]
        · rw [if_neg hq, if_neg hq]
          exact ih

lemma objLookup_append_notMem (o rest : Obj) (k : String)
    (h : k ∉ o.map Prod.fst) :
    objLookup (o ++ rest) k = objLookup rest k := by
  induction o with
  | nil => rfl
  | cons kv tail ih =>
      have h1 : ¬ (kv.1 = k) := by
        intro hc
        exact h (by simp [hc])
      have h2 : k ∉ tail.map Prod.fst := by
        intro hc
        exact h (by simp [hc])
      rw [List.cons_append]
      simp only [objLookup, if_neg h1]
      exact ih h2

lemma objLookup_objInsert_self (o : Obj) (k : String) (v : Value) :
    objLookup (objInsert o k v) k = some v := by
  unfold objInsert
  by_cases h : k ∈ o.map Prod.fst
  · rw [if_pos h]
    exact objLookup_map_replace_self o k v h
  · rw [if_neg h, objLookup_append_notMem o _ k h]
    simp [objLookup]

lemma objLookup_objInsert_ne (o : Obj) (k kq : String) (v : Value)
    (h : kq ≠ k) :
    objLookup (objInsert o k v) kq = objLookup o kq := by
  have h1 : ¬ (k = kq) := fun hc => h hc.symm
  unfold objInsert
  by_cases hm : k ∈ o.map Prod.fst
  · rw [if_pos hm]
    exact objLookup_map_replace_ne o k kq v h
  · rw [if_neg hm]
    clear hm
    induction o with
    | nil =>
        simp only [List.nil_append, objLookup, if_neg h1]
    | cons kv tail ih =>
        rw [List.cons_append]
        simp only [objLookup]
        by_cases hq : kv.1 = kq
        · rw [if_pos hq, if_pos hq]
        · rw [if_neg hq, if_neg hq]
          exact ih

lemma objLookup_objSpread_notMem (o : Obj) (data : Fields) (k : String)
    (h : k ∉ data.map Prod.fst) :
    objLookup (objSpread o data) k = objLookup o k := by
  induction data generalizing o with
  | nil => rfl
  | cons kv rest ih =>
      have h1 : ¬ (kv.1 = k) := by
        intro hc
        exact h (by simp [hc])
      have h2 : k ∉ rest.map Prod.fst := by
        intro hc
        exact h (by simp [hc])
      show objLookup (objSpread (objInsert o kv.1 kv.2) rest) k = _
      rw [ih (objInsert o kv.1 kv.2) h2,
        objLookup_objInsert_ne o kv.1 k kv.2 (fun hc => h1 hc.symm)]

lemma objLookup_objSpread_mem (o : Obj) (data : Fields) (k : String) (v : Value)
    (hnd : (data.map Prod.fst).Nodup) (hmem : (k, v) ∈ data) :
    objLookup (objSpread o data) k = some v := by
  induction data generalizing o with
  | nil => simp at hmem
  | cons kv rest ih =>
      rw [List.map_cons, List.nodup_cons] at hnd
      rcases List.mem_cons.mp hmem with hh | ht
      · have hk : kv.1 = k := by rw [← hh]
        have hnr : k ∉ rest.map Prod.fst := by rw [← hk]; exact hnd.1
        show objLookup (objSpread (objInsert o kv.1 kv.2) rest) k = some v
        rw [objLookup_objSpread_notMem _ rest k hnr, hk, ← hh]
        exact objLookup_objInsert_self o k v
      · show objLookup (objSpread (objInsert o kv.1 kv.2) rest) k = some v
        exact ih (objInsert o kv.1 kv.2) hnd.2 ht

lemma keys_map_replace (o : Obj) (k : String) (v : Value) :
    (o.map (fun kv => if kv.1 = k then (k, v) else kv)).map Prod.fst =
      o.map Prod.fst := by
  induction o with
  | nil => rfl
  | cons kv rest ih =>
      by_cases hk : kv.1 = k
      · simp only [List.map_cons, if_pos hk, ih]
        rw [hk]
      · simp only [List.map_cons, if_neg hk, ih]

lemma nodupKeys_objInsert (o : Obj) (k : String) (v : Value)
    (h : (o.map Prod.fst).Nodup) :
    ((objInsert o k v).map Prod.fst).Nodup := by
  unfold objInsert
  by_cases hm : k ∈ o.map Prod.fst
  · rw [if_pos hm, keys_map_replace]
    exact h
  · rw [if_neg hm, List.map_append]
    rw [List.nodup_append]
    refine ⟨h, List.nodup_singleton k, ?_⟩
    intro a ha hb
    simp only [List.map_cons, List.map_nil, List.mem_singleton] at hb
    rw [hb] at ha
    exact hm ha

lemma nodupKeys_objSpread (o : Obj) (data : Fields)
    (h : (o.map Prod.fst).Nodup) :
    ((objSpread o data).map Prod.fst).Nodup := by
  induction data generalizing o with
  | nil => exact h
  | cons kv rest ih =>
      show ((objSpread (objInsert o kv.1 kv.2) rest).map Prod.fst).Nodup
      exact ih (objInsert o kv.1 kv.2) (nodupKeys_objInsert o kv.1 kv.2 h)

lemma objLookup_of_mem_nodup (o : Obj) (kv : String × Value)
    (h : (o.map Prod.fst).Nodup) (hmem : kv ∈ o) :
    objLookup o kv.1 = some kv.2 := by
  induction o with
  | nil => simp at hmem
  | cons hd rest ih =>
      rw [List.map_cons, List.nodup_cons] at h
      rcases List.mem_cons.mp hmem with hh | ht
      · rw [hh]
        simp [objLookup]
      · have hne : ¬ (hd.1 = kv.1) := by
          intro hc
          refine h.1 ?_
          rw [hc]
          exact List.mem_map_of_mem Prod.fst ht
        simp only [objLookup, if_neg hne]
        exact ih h.2 ht

lemma objLookup_fixedRow_level (t lvl m e : String) (sv : Value) :
    objLookup [("timestamp", Value.vStr t), ("level", Value.vStr lvl),
      ("message", Value.vStr m), ("env", Value.vStr e), ("service", sv)]
      "level" = some (Value.vStr lvl) := by
  simp [objLookup]

lemma objLookup_fixedRow_service (t lvl m e : String) (sv : Value) :
    objLookup [("timestamp", Value.vStr t), ("level", Value.vStr lvl),
      ("message", Value.vStr m), ("env", Value.vStr e), ("service", sv)]
      "service" = some sv := by
  simp [objLookup]

lemma nodupKeys_fixedRow (t lvl m e : String) (sv : Value) :
    (([("timestamp", Value.vStr t), ("level", Value.vStr lvl),
      ("message", Value.vStr m), ("env", Value.vStr e),
      ("service", sv)] : Obj).map Prod.fst).Nodup := by
  show (["timestamp", "level", "message", "env", "service"] : List String).Nodup
  decide

lemma log_filtered (l : Logger) (now : String) (lv : LogLevel) (msg : String)
    (dataOpt : Option Fields)
    (h : jsLtNum (LEVEL_PRIORITY lv) l.minPriority = true) :
    l.log now lv msg dataOpt = ⟨[], Except.ok []⟩ := by
  unfold Logger.log
  rw [h]
  simp

lemma log_accepted (l : Logger) (now : String) (lv : LogLevel) (msg : String)
    (dataOpt : Option Fields)
    (h : jsLtNum (LEVEL_PRIORITY lv) l.minPriority = false) :
    l.log now lv msg dataOpt =
      ⟨[buildEntry now lv msg l.env l.service (dataOpt.getD [])],
       l.output (buildEntry now lv msg l.env l.service (dataOpt.getD []))⟩ := by
  unfold Logger.log
  rw [h]
  simp

/-! ### Concrete fixtures used by witnesses and counterexamples -/

/-- A sink that records nothing and writes nothing. -/
def testSink : Sink := fun _ => Except.ok []

/-- A sink that throws on every entry. -/
def failSink : Sink := fun _ => Except.error (Value.vStr "boom")

/-- A logger with minimum level `info`, no service name, a custom sink. -/
def testLoggerInfo : Logger :=
  Logger.construct ⟨some "info", none, some "prod", some testSink⟩ none

/-- A logger with minimum level `warn`. -/
def testLoggerWarn : Logger :=
  Logger.construct ⟨some "warn", none, some "prod", some testSink⟩ none

/-- A logger whose sink throws on every delivery. -/
def testLoggerFail : Logger :=
  Logger.construct ⟨some "info", some "svc", some "prod", some failSink⟩ none

/-! ### Claim theorems -/

/-- C1: for every severity S, threshold T, message and additional fields,
if priority S is strictly below priority T then the severity-S call on a
logger whose minimum priority is T returns immediately with no side
effect: the sink is invoked zero times, no entry is constructed, and the
call's result is a normal (error-free) return. -/
theorem c1_below_threshold_no_effect :
    ∀ (l : Logger) (S T : LogLevel) (now msg : String) (dataOpt : Option Fields),
      l.minPriority = some (LEVEL_PRIORITY T) →
      LEVEL_PRIORITY S < LEVEL_PRIORITY T →
      l.log now S msg dataOpt = ⟨[], Except.ok []⟩ := by
  intro l S T now msg dataOpt hmin hlt
  apply log_filtered
  rw [hmin]
  simp only [jsLtNum, decide_eq_true_eq]
  exact hlt

/-- Witness for C1: a logger with minimum `warn` filters a `debug` call. -/
theorem c1_witness :
    testLoggerWarn.log "t" LogLevel.debug "m" none = ⟨[], Except.ok []⟩ :=
  c1_below_threshold_no_effect testLoggerWarn LogLevel.debug LogLevel.warn
    "t" "m" none rfl (by decide)

/-- C2 counterexample: with additional field `level = "bogus"`, an accepted
`error` call delivers an entry whose `level` is `"bogus"`, not `"error"`,
so the claim's `level = S` conclusion fails for that field mapping. -/
theorem c2_counterexample :
    (testLoggerInfo.log "t" LogLevel.error "x"
        (some [("level", Value.vStr "bogus")])).sinkCalls.map
      (fun e => objLookup e "level") = [some (Value.vStr "bogus")] ∧
    [some (Value.vStr "bogus")] ≠ [some (Value.vStr (levelName LogLevel.error))] := by
  refine ⟨rfl, ?_⟩
  decide

/-- C2 (amended): when priority S is at or above the threshold priority T,
the sink is invoked exactly once for every additional-field mapping; and
whenever the mapping does not itself bind the key `level`, the delivered
entry's `level` equals S. -/
theorem c2_at_or_above_threshold :
    ∀ (l : Logger) (S T : LogLevel) (now msg : String) (dataOpt : Option Fields),
      l.minPriority = some (LEVEL_PRIORITY T) →
      LEVEL_PRIORITY T ≤ LEVEL_PRIORITY S →
      (l.log now S msg dataOpt).sinkCalls.length = 1 ∧
      ("level" ∉ (dataOpt.getD []).map Prod.fst →
        (l.log now S msg dataOpt).sinkCalls.map (fun e => objLookup e "level") =
          [some (Value.vStr (levelName S))]) := by
  intro l S T now msg dataOpt hmin hge
  have hcond : jsLtNum (LEVEL_PRIORITY S) l.minPriority = false := by
    rw [hmin]
    simp only [jsLtNum, decide_eq_false_iff_not]
    omega
  rw [log_accepted l now S msg dataOpt hcond]
  refine ⟨rfl, ?_⟩
  intro hnot
  simp only [List.map_cons, List.map_nil, buildEntry]
  rw [objLookup_objSpread_notMem _ _ _ hnot, objLookup_fixedRow_level]

/-- Witness for C2 (amended): `warn` on a minimum-`info` logger delivers
exactly one entry with `level = "warn"`. -/
theorem c2_witness :
    (testLoggerInfo.log "t" LogLevel.warn "m" none).sinkCalls.length = 1 ∧
    (testLoggerInfo.log "t" LogLevel.warn "m" none).sinkCalls.map
      (fun e => objLookup e "level") = [some (Value.vStr (levelName LogLevel.warn))] :=
  ⟨(c2_at_or_above_threshold testLoggerInfo LogLevel.warn LogLevel.info
      "t" "m" none rfl (by decide)).1,
   (c2_at_or_above_threshold testLoggerInfo LogLevel.warn LogLevel.info
      "t" "m" none rfl (by decide)).2 (by decide)⟩

/-- C3: on every accepted call, a caller-supplied binding (k, v) of the
additional-field object overrides any same-named fixed field: the single
delivered entry maps k to v. -/
theorem c3_caller_fields_override :
    ∀ (l : Logger) (lv : LogLevel) (now msg : String) (data : Fields)
      (k : String) (v : Value),
      jsLtNum (LEVEL_PRIORITY lv) l.minPriority = false →
      (data.map Prod.fst).Nodup →
      (k, v) ∈ data →
      (l.log now lv msg (some data)).sinkCalls.map (fun e => objLookup e k) =
        [some v] := by
  intro l lv now msg data k v hacc hnd hmem
  rw [log_accepted l now lv msg (some data) hacc]
  simp only [List.map_cons, List.map_nil, buildEntry, Option.getD_some]
  rw [objLookup_objSpread_mem _ data k v hnd hmem]

/-- Witness for C3: additional field `level = "bogus"` overrides the fixed
`level` field of an accepted `error` call. -/
theorem c3_witness :
    (testLoggerInfo.log "u" LogLevel.error "x"
        (some [("level", Value.vStr "bogus")])).sinkCalls.map
      (fun e => objLookup e "level") = [some (Value.vStr "bogus")] :=
  c3_caller_fields_override testLoggerInfo LogLevel.error "u" "x"
    [("level", Value.vStr "bogus")] "level" (Value.vStr "bogus")
    (by decide) (by decide) (by decide)

/-- C4 counterexample: on a logger constructed without a service name, an
accepted call delivers an entry whose key list does contain `service`
(bound to the undefined value), so the claim that no `service` key is
present in the entry delivered to the sink is false. -/
theorem c4_counterexample :
    (testLoggerInfo.info "t" "hi" none).sinkCalls.map (fun e => e.map Prod.fst) =
      [["timestamp", "level", "message", "env", "service"]] ∧
    "service" ∈ ((testLoggerInfo.info "t" "hi" none).sinkCalls.headD []).map Prod.fst := by
  refine ⟨rfl, ?_⟩
  decide

/-- C4 (amended): on a logger constructed without a service name, every
accepted call whose additional fields do not bind `service` delivers an
entry that maps the key `service` to the undefined value; that key is
therefore omitted from the JSON serialization (it is not a member key),
so the serialized record has no `service` member — but the in-memory
entry handed to the sink does carry the key. -/
theorem c4_absent_service_undefined_key :
    ∀ (l : Logger) (lv : LogLevel) (now msg : String) (data : Fields),
      l.service = none →
      jsLtNum (LEVEL_PRIORITY lv) l.minPriority = false →
      "service" ∉ data.map Prod.fst →
      (l.log now lv msg (some data)).sinkCalls.map (fun e => objLookup e "service") =
        [some Value.vUndefined] ∧
      ∀ e ∈ (l.log now lv msg (some data)).sinkCalls, "service" ∉ jsonKeys e := by
  intro l lv now msg data hsvc hacc hns
  rw [log_accepted l now lv msg (some data) hacc]
  simp only [Option.getD_some]
  have hlook : objLookup (buildEntry now lv msg l.env l.service data) "service" =
      some Value.vUndefined := by
    simp only [buildEntry]
    rw [objLookup_objSpread_notMem _ data _ hns, hsvc]
    exact objLookup_fixedRow_service now (levelName lv) msg l.env (jsStrOrUndef none)
  refine ⟨?_, ?_⟩
  · simp only [List.map_cons, List.map_nil]
    rw [hlook]
  · intro e he
    have he2 : e = buildEntry now lv msg l.env l.service data :=
      List.mem_singleton.mp he
    rw [he2]
    intro hmem
    rcases List.mem_map.mp hmem with ⟨kv, hkv, hfst⟩
    rcases List.mem_filter.mp hkv with ⟨hin, hval⟩
    have hnd : ((buildEntry now lv msg l.env l.service data).map Prod.fst).Nodup := by
      simp only [buildEntry]
      exact nodupKeys_objSpread _ data
        (nodupKeys_fixedRow now (levelName lv) msg l.env (jsStrOrUndef l.service))
    have hl2 := objLookup_of_mem_nodup _ kv hnd hin
    rw [hfst, hlook] at hl2
    have hvne : kv.2 ≠ Value.vUndefined := of_decide_eq_true hval
    exact hvne (Option.some.inj hl2).symm

/-- Witness for C4 (amended): default-service logger, `info` call with one
extra field; the delivered entry maps `service` to undefined and the JSON
member keys exclude it. -/
theorem c4_witness :
    (testLoggerInfo.log "t" LogLevel.info "hi"
        (some [("userId", Value.vNum 42)])).sinkCalls.map
      (fun e => objLookup e "service") = [some Value.vUndefined] ∧
    "service" ∉ jsonKeys
      ((testLoggerInfo.log "t" LogLevel.info "hi"
        (some [("userId", Value.vNum 42)])).sinkCalls.headD []) :=
  ⟨(c4_absent_service_undefined_key testLoggerInfo LogLevel.info "t" "hi"
      [("userId", Value.vNum 42)] rfl (by decide) (by decide)).1,
   (c4_absent_service_undefined_key testLoggerInfo LogLevel.info "t" "hi"
      [("userId", Value.vNum 42)] rfl (by decide) (by decide)).2
     ((testLoggerInfo.log "t" LogLevel.info "hi"
        (some [("userId", Value.vNum 42)])).sinkCalls.headD []) (by decide)⟩

/-- C5: on every accepted call, an error thrown by the injected sink while
delivering the entry propagates unmodified as the result of the emission
call; the logger neither catches nor retries it. -/
theorem c5_sink_error_propagates :
    ∀ (l : Logger) (lv : LogLevel) (now msg : String) (dataOpt : Option Fields)
      (err : Value),
      jsLtNum (LEVEL_PRIORITY lv) l.minPriority = false →
      l.output (buildEntry now lv msg l.env l.service (dataOpt.getD [])) =
        Except.error err →
      (l.log now lv msg dataOpt).result = Except.error err := by
  intro l lv now msg dataOpt err hacc hsink
  rw [log_accepted l now lv msg dataOpt hacc]
  exact hsink

/-- Witness for C5: a throwing sink makes the `error` call itself throw the
sink's error value. -/
theorem c5_witness :
    (testLoggerFail.log "t" LogLevel.error "x" none).result =
      Except.error (Value.vStr "boom") :=
  c5_sink_error_propagates testLoggerFail LogLevel.error "t" "x" none
    (Value.vStr "boom") (by decide) rfl

/-- C6: the severity-to-priority table used for filtering is exactly
debug = 0, info = 1, warn = 2, error = 3, critical = 4, strictly increasing
in that order, and the raw table read agrees with it on each level name. -/
theorem c6_priority_table :
    LEVEL_PRIORITY LogLevel.debug = 0 ∧ LEVEL_PRIORITY LogLevel.info = 1 ∧
    LEVEL_PRIORITY LogLevel.warn = 2 ∧ LEVEL_PRIORITY LogLevel.error = 3 ∧
    LEVEL_PRIORITY LogLevel.critical = 4 ∧
    LEVEL_PRIORITY LogLevel.debug < LEVEL_PRIORITY LogLevel.info ∧
    LEVEL_PRIORITY LogLevel.info < LEVEL_PRIORITY LogLevel.warn ∧
    LEVEL_PRIORITY LogLevel.warn < LEVEL_PRIORITY LogLevel.error ∧
    LEVEL_PRIORITY LogLevel.error < LEVEL_PRIORITY LogLevel.critical ∧
    ∀ lv : LogLevel, LEVEL_PRIORITY_get (levelName lv) = some (LEVEL_PRIORITY lv) := by
  refine ⟨rfl, rfl, rfl, rfl, rfl, by decide, by decide, by decide, by decide, ?_⟩
  intro lv
  cases lv <;> rfl

/-- C7: construction resolves every default eagerly: an all-omitted options
object yields minimum priority `LEVEL_PRIORITY info`, an absent service
name, the environment taken from the external `DENO_ENV` read (else
`"dev"`), and the default sink, which serializes the entry as JSON and
writes exactly one line to standard output. -/
theorem c7_construction_defaults :
    ∀ denoEnv : Option String,
      Logger.construct ⟨none, none, none, none⟩ denoEnv =
        ⟨some (LEVEL_PRIORITY LogLevel.info), none, denoEnv.getD "dev", defaultSink⟩ ∧
      ∀ e : Obj, defaultSink e = Except.ok [jsonStringifyObj e] :=
  fun _ => ⟨rfl, fun _ => rfl⟩

/-- C8: emission methods never modify the configuration: after any sequence
of debug/info/warn/error/critical calls the logger state equals the state
at construction. -/
theorem c8_config_immutable :
    ∀ (l : Logger) (cs : List Call), runCalls l cs = l := by
  intro l cs
  induction cs generalizing l with
  | nil => rfl
  | cons c rest ih =>
      have hd : (l.dispatch c).1 = l := by
        rcases c with ⟨lv, now, msg, d⟩
        cases lv <;> rfl
      show runCalls ((l.dispatch c).1) rest = l
      rw [hd]
      exact ih l

/-- C9 counterexample: constructing with the unrecognized level name
`"verbose"` does not fail fast: the constructor completes and the logger
even emits a `debug` call (length 1), whereas the silent-default behaviour
the claim contrasts with (an `info` threshold) would have filtered it
(length 0). The filter is simply disabled, not defaulted and not rejected. -/
theorem c9_counterexample :
    ((Logger.construct ⟨some "verbose", none, none, some testSink⟩ none).log
        "t" LogLevel.debug "m" none).sinkCalls.length = 1 ∧
    ((Logger.construct ⟨none, none, none, some testSink⟩ none).log
        "t" LogLevel.debug "m" none).sinkCalls.length = 0 :=
  ⟨rfl, rfl⟩

/-- C9 (amended): supplying an unrecognized severity name at construction
neither fails nor defaults the threshold: the constructor completes with
an undefined minimum priority, and since a numeric comparison against
undefined is false, every subsequent call at every severity invokes the
sink exactly once (filtering is disabled). -/
theorem c9_unrecognized_level_not_failfast :
    ∀ (s : String) (svc envOpt : Option String) (sinkOpt : Option Sink)
      (denoEnv : Option String),
      LEVEL_PRIORITY_get s = none →
      (Logger.construct ⟨some s, svc, envOpt, sinkOpt⟩ denoEnv).minPriority = none ∧
      ∀ (lv : LogLevel) (now msg : String) (d : Option Fields),
        ((Logger.construct ⟨some s, svc, envOpt, sinkOpt⟩ denoEnv).log
          now lv msg d).sinkCalls.length = 1 := by
  intro s svc envOpt sinkOpt denoEnv h
  have hmin : (Logger.construct ⟨some s, svc, envOpt, sinkOpt⟩ denoEnv).minPriority = none := by
    show LEVEL_PRIORITY_get s = none
    exact h
  refine ⟨hmin, ?_⟩
  intro lv now msg d
  have hacc : jsLtNum (LEVEL_PRIORITY lv)
      (Logger.construct ⟨some s, svc, envOpt, sinkOpt⟩ denoEnv).minPriority = false := by
    rw [hmin]
    rfl
  rw [log_accepted _ now lv msg d hacc]
  rfl

/-- Witness for C9 (amended), at the unrecognized name `"verbose"`. -/
theorem c9_witness :
    (Logger.construct ⟨some "verbose", none, none, some testSink⟩ none).minPriority = none ∧
    ((Logger.construct ⟨some "verbose", none, none, some testSink⟩ none).log
        "u" LogLevel.debug "m" none).sinkCalls.length = 1 :=
  ⟨(c9_unrecognized_level_not_failfast "verbose" none none (some testSink) none rfl).1,
   (c9_unrecognized_level_not_failfast "verbose" none none (some testSink) none rfl).2
     LogLevel.debug "u" "m" none⟩

/-- C10: for every severity method, omitting the additional-fields argument
is the same call as passing the empty mapping: identical filter decision,
identical delivered entry, identical result. -/
theorem c10_omitted_data_defaults_empty :
    ∀ (l : Logger) (now msg : String),
      l.debug now msg none = l.debug now msg (some []) ∧
      l.info now msg none = l.info now msg (some []) ∧
      l.warn now msg none = l.warn now msg (some []) ∧
      l.error now msg none = l.error now msg (some []) ∧
      l.critical now msg none = l.critical now msg (some []) :=
  fun _ _ _ => ⟨rfl, rfl, rfl, rfl, rfl⟩
